import Mathlib

/-!
Verification development for the ntfy-agent repository (ml-monitor-daemon.py and
ml-monitor-ui.py).  The daemon polls the process table for top-level Python
processes, tracks them in an in-memory dict, notifies an ntfy server when a
tracked process disappears, and persists the tracked set to a JSON state file.
The viewer reads the same state file and renders it.

Modelling conventions:
* Python strings are lists of Unicode code points (Str below).
* Python dicts are insertion-ordered association lists with unique keys;
  assignment is dictSet, lookup is lookupPid.
* datetime objects are a record of calendar components; isoformat and
  fromisoformat are implemented concretely over code points, on the grammar
  isoformat emits.
* External capabilities (psutil process table, nvidia-smi shell-out, requests
  HTTP post, the filesystem) are modelled as explicit outcome values passed to
  each function; Python exception flow is modelled with Except, and a
  try/except block is modelled by matching on the Except value of its body.
* The json.dump/json.load text layer is Python stdlib and is treated as the
  identity on the serializable value tree that save_state builds; the state
  file payload is therefore modelled as that value tree.
-/

set_option maxHeartbeats 1000000

/-- Python strings are modelled as lists of Unicode code points. -/
abbrev Str := List Nat

/-- Code points of a Lean string literal, used to transcribe Python string literals. -/
def pystr (s : String) : Str := s.data.map Char.toNat

/-- The last w decimal digits of n, zero padded, as digit code points.
Used for the fixed-width fields of datetime.isoformat. -/
def pad : Nat → Nat → Str
  | 0, _ => []
  | w + 1, n => pad w (n / 10) ++ [48 + n % 10]

/-- Accumulating decimal parser over digit code points. -/
def parseDigitsAux : Nat → Str → Nat
  | acc, [] => acc
  | acc, c :: cs => parseDigitsAux (acc * 10 + (c - 48)) cs

/-- Decimal value of a string of digit code points. -/
def parseDigits (s : Str) : Nat := parseDigitsAux 0 s

/-- Is the code point a decimal digit (0-9)? -/
def isDigitCode (c : Nat) : Bool := 48 ≤ c && c ≤ 57

/-- Decimal rendering of a natural number, fuel-structured so that it computes
by kernel reduction; natDigits below supplies sufficient fuel. -/
def natDigitsAux : Nat → Nat → Str
  | 0, _ => []
  | fuel + 1, n => if n < 10 then [48 + n] else natDigitsAux fuel (n / 10) ++ [48 + n % 10]

/-- Python str applied to a nonnegative int: decimal digits, no padding. -/
def natDigits (n : Nat) : Str := natDigitsAux (n + 1) n

/-- Python int applied to a string: only the plain-decimal-digits grammar is
modelled, the case exercised by the state-file keys written by save_state; any
other string is a parse failure (ValueError). -/
def pyInt (s : Str) : Option Nat :=
  if !s.isEmpty && s.all isDigitCode then some (parseDigits s) else none

/-- A naive Python datetime value (no timezone), as produced by
datetime.fromtimestamp and datetime.now in the daemon. -/
structure DateTime where
  year : Nat
  month : Nat
  day : Nat
  hour : Nat
  minute : Nat
  second : Nat
  microsecond : Nat
deriving DecidableEq, Repr

/-- Range constraints every Python datetime satisfies by construction (MINYEAR
to MAXYEAR is 1 to 9999, microsecond below 10^6, the rest two-digit).  These
are exactly the field widths isoformat prints. -/
def DateTime.valid (d : DateTime) : Prop :=
  d.year < 10000 ∧ d.month < 100 ∧ d.day < 100 ∧ d.hour < 100 ∧
    d.minute < 100 ∧ d.second < 100 ∧ d.microsecond < 1000000

instance (d : DateTime) : Decidable d.valid := by
  unfold DateTime.valid; infer_instance

/-- datetime.isoformat: YYYY-MM-DDTHH:MM:SS with a .ffffff suffix exactly when
the microsecond component is nonzero.  45, 84, 58, 46 are the code points of
the minus sign, capital T, the colon and the dot. -/
def isoformat (d : DateTime) : Str :=
  pad 4 d.year ++ (45 :: (pad 2 d.month ++ (45 :: (pad 2 d.day ++ (84 :: (pad 2 d.hour ++
    (58 :: (pad 2 d.minute ++ (58 :: (pad 2 d.second ++
    (if d.microsecond = 0 then [] else 46 :: pad 6 d.microsecond)))))))))))

/-- Read exactly w digit code points off the front of a string. -/
def readFixed (w : Nat) (s : Str) : Option (Nat × Str) :=
  if (s.take w).length = w ∧ (s.take w).all isDigitCode = true then
    some (parseDigits (s.take w), s.drop w)
  else none

/-- Consume one expected code point off the front of a string. -/
def expectCode (c : Nat) : Str → Option Str
  | [] => none
  | x :: xs => if x = c then some xs else none

/-- The optional fractional-seconds suffix of an isoformat string: either
nothing, or a dot followed by six digits ending the string. -/
def readMicro : Str → Option Nat
  | [] => some 0
  | c :: rest =>
    if c = 46 then
      (readFixed 6 rest).bind fun p => if p.2.isEmpty then some p.1 else none
    else none

/-- datetime.fromisoformat, on the grammar that isoformat emits (the only
input load_state ever feeds it on the save/load round trip). -/
def fromisoformat (s : Str) : Option DateTime :=
  (readFixed 4 s).bind fun py =>
  (expectCode 45 py.2).bind fun s2 =>
  (readFixed 2 s2).bind fun pmo =>
  (expectCode 45 pmo.2).bind fun s4 =>
  (readFixed 2 s4).bind fun pda =>
  (expectCode 84 pda.2).bind fun s6 =>
  (readFixed 2 s6).bind fun ph =>
  (expectCode 58 ph.2).bind fun s8 =>
  (readFixed 2 s8).bind fun pmi =>
  (expectCode 58 pmi.2).bind fun s10 =>
  (readFixed 2 s10).bind fun pse =>
  (readMicro pse.2).bind fun us =>
  some ⟨py.1, pmo.1, pda.1, ph.1, pmi.1, pse.1, us⟩

/-- Python exception classes that appear in the two source files. -/
inductive PyExc where
  | noSuchProcess
  | accessDenied
  | zombieProcess
  | osError
  | valueError
  | otherError
deriving DecidableEq, Repr

/-- GPU usage payload returned by get_gpu_info_for_process: the dict
with the single key used_memory holding the second csv field. -/
structure GpuInfo where
  used_memory : Str
deriving DecidableEq, Repr

/-- One value of the tracked_processes dict of the daemon: cmdline string,
start_time and last_checked datetimes, username, and the optional GPU info. -/
structure ProcEntry where
  cmdline : Str
  start_time : DateTime
  username : Str
  last_checked : DateTime
  gpu_info : Option GpuInfo
deriving DecidableEq, Repr

/-- Entries whose datetimes are representable Python datetimes. -/
def ProcEntry.valid (e : ProcEntry) : Prop :=
  e.start_time.valid ∧ e.last_checked.valid

instance (e : ProcEntry) : Decidable e.valid := by
  unfold ProcEntry.valid; infer_instance

/-- The tracked_processes dict of the daemon: insertion-ordered pid/entry pairs. -/
abbrev Tracked := List (Nat × ProcEntry)

/-- Python dict lookup by key. -/
def lookupPid {α : Type} : List (Nat × α) → Nat → Option α
  | [], _ => none
  | (k, v) :: rest, p => if k = p then some v else lookupPid rest p

/-- Python dict assignment d[k] = v: replace in place if the key exists,
otherwise append (insertion order). -/
def dictSet {α : Type} : List (Nat × α) → Nat → α → List (Nat × α)
  | [], k, v => [(k, v)]
  | (k', v') :: rest, k, v =>
    if k' = k then (k, v) :: rest else (k', v') :: dictSet rest k v

/-- Deleting a list of keys from a dict (the loop over terminated_pids). -/
def removeAll (t : Tracked) (dead : List Nat) : Tracked :=
  t.filter fun pe => !(dead.contains pe.1)

/-- One value of the serializable_state dict that save_state builds and
json.dump writes: cmdline and username strings, both datetimes rendered with
isoformat, and the gpu_info payload (null or an object). -/
structure SerEntry where
  cmdline : Str
  start_time : Str
  username : Str
  last_checked : Str
  gpu_info : Option GpuInfo
deriving DecidableEq, Repr

/-- The per-entry conversion inside the serialization loop of save_state. -/
def serializeEntry (e : ProcEntry) : SerEntry :=
  ⟨e.cmdline, isoformat e.start_time, e.username, isoformat e.last_checked, e.gpu_info⟩

/-- The serializable_state dict built by save_state: keys are str(pid),
values are the serialized entries, in dict iteration order. -/
def serializeState (t : Tracked) : List (Str × SerEntry) :=
  t.map fun pe => (natDigits pe.1, serializeEntry pe.2)

/-- The per-entry conversion inside the load loops of load_state (daemon) and
load_daemon_state (viewer): parse both timestamps back with fromisoformat;
a parse failure raises (None here), which the caller catches. -/
def deserializeEntry (se : SerEntry) : Option ProcEntry :=
  (fromisoformat se.start_time).bind fun st =>
  (fromisoformat se.last_checked).bind fun lc =>
  some ⟨se.cmdline, st, se.username, lc, se.gpu_info⟩

/-- What reading the state file yields: the file is absent, or unparsable
(json.load or a conversion raises, carrying the exception), or a parsed
value tree. -/
inductive FileRead where
  | missing
  | malformed (e : PyExc)
  | content (entries : List (Str × SerEntry))

/-- The for-loop of the daemon over serialized_state.items(): each iteration
assigns tracked_processes[int(pid_str)] = converted entry.  A conversion
failure raises out of the loop (caught by load_state), leaving the
assignments already made in place. -/
def load_entries : Tracked → List (Str × SerEntry) → Tracked
  | t, [] => t
  | t, (k, se) :: rest =>
    match pyInt k, deserializeEntry se with
    | some pid, some e => load_entries (dictSet t pid e) rest
    | _, _ => t

/-- MLMonitorDaemon.load_state: returns early (tracked unchanged) when the
file is missing; otherwise parses inside try/except, so an unreadable or
malformed file is caught and logged and never raises to the caller. -/
def load_state (f : FileRead) (t : Tracked) : Except PyExc Tracked :=
  match f with
  | .missing => .ok t
  | .malformed _ => .ok t
  | .content es => .ok (load_entries t es)

/-- Outcome of the nvidia-smi shell-out in get_gpu_info_for_process: the
subprocess call raised, or returned with a returncode and csv rows (each
nonblank stdout line split on commas, fields stripped). -/
inductive GpuOutcome where
  | exc (e : PyExc)
  | output (returncode : Int) (rows : List (List Str))

/-- The row scan in get_gpu_info_for_process: the first row with at least
two fields whose first field equals str(pid) yields its second field as
used_memory. -/
def findGpuRow (pid : Nat) : List (List Str) → Option GpuInfo
  | [] => none
  | parts :: rest =>
    if 2 ≤ parts.length ∧ parts[0]? = some (natDigits pid) then
      some ⟨(parts[1]?).getD []⟩
    else findGpuRow pid rest

/-- MLMonitorDaemon.get_gpu_info_for_process: the whole body is inside
try/except Exception, so a raising shell-out or a nonzero exit degrades to
None and never raises to the caller. -/
def get_gpu_info_for_process (o : GpuOutcome) (pid : Nat) : Option GpuInfo :=
  match o with
  | .exc _ => none
  | .output rc rows => if rc ≠ 0 then none else findGpuRow pid rows

/-- Outcome of the requests.post call: a response with its status code and
text, or a raised exception. -/
inductive HttpOutcome where
  | response (status : Nat) (text : Str)
  | exc (e : PyExc)

/-- requests.post: returns the response or raises. -/
def requests_post (o : HttpOutcome) : Except PyExc (Nat × Str) :=
  match o with
  | .response st tx => .ok (st, tx)
  | .exc e => .error e

/-- MLMonitorDaemon.send_notification: posts to the ntfy url and returns
status_code == 200; the try/except Exception catches every raise and
returns False.  The Except result type records that no exception escapes. -/
def send_notification (o : HttpOutcome) : Except PyExc Bool :=
  match requests_post o with
  | .ok r => .ok (decide (r.1 = 200))
  | .error _ => .ok false

/-- Outcome of inspecting the parent of a candidate (psutil.Process(proc.ppid())
followed by parent.name()): a name, or one of the psutil exceptions the
code distinguishes. -/
inductive ParentLookup where
  | name (s : Str)
  | noSuchProcess
  | accessDenied
  | zombieProcess
deriving DecidableEq, Repr

/-- One row of the psutil.process_iter snapshot (the attrs the daemon
requests), plus the parent lookup outcome for this candidate. -/
structure ProcInfo where
  pid : Nat
  name : Str
  username : Str
  cmdline : Option (List Str)
  create_time : DateTime
  parent : ParentLookup
deriving DecidableEq, Repr

/-- The target-name predicate of the daemon, name == python or name == python3,
applied to the candidate (line 38) and to its parent (line 58). -/
def is_target_name (s : Str) : Bool := s == pystr "python" || s == pystr "python3"

/-- Python " ".join (32 is the space code point). -/
def joinSpace : List Str → Str
  | [] => []
  | [x] => x
  | x :: xs => x ++ 32 :: joinSpace xs

/-- Line 51: the stored cmdline is the space-join of the reported list, or
the literal Unknown when the list is None or empty (Python falsiness). -/
def cmdlineString (c : Option (List Str)) : Str :=
  match c with
  | none => pystr "Unknown"
  | some [] => pystr "Unknown"
  | some l => joinSpace l

/-- The entry stored for a newly seen process (lines 65-71). -/
def newEntry (q : ProcInfo) (gpu : Nat → GpuOutcome) (now : DateTime) : ProcEntry :=
  ⟨cmdlineString q.cmdline, q.create_time, q.username, now,
    get_gpu_info_for_process (gpu q.pid) q.pid⟩

/-- The loop of find_python_processes over the snapshot.  Per candidate:
target-name check; retain the existing entry for an already-tracked pid;
skip the pid of the daemon itself; skip when the parent is also a target (a child
process); a NoSuchProcess/AccessDenied parent lookup is caught by the inner
except and falls through to acceptance; a ZombieProcess raise is caught by
the outer except, skipping the candidate. -/
def find_aux (tracked : Tracked) (self_pid : Nat) (gpu : Nat → GpuOutcome) (now : DateTime) :
    List ProcInfo → Tracked → Tracked
  | [], acc => acc
  | q :: rest, acc =>
    if is_target_name q.name then
      match lookupPid tracked q.pid with
      | some e => find_aux tracked self_pid gpu now rest (dictSet acc q.pid e)
      | none =>
        if q.pid = self_pid then find_aux tracked self_pid gpu now rest acc
        else
          match q.parent with
          | .zombieProcess => find_aux tracked self_pid gpu now rest acc
          | .name n =>
            if is_target_name n then find_aux tracked self_pid gpu now rest acc
            else find_aux tracked self_pid gpu now rest (dictSet acc q.pid (newEntry q gpu now))
          | .noSuchProcess =>
            find_aux tracked self_pid gpu now rest (dictSet acc q.pid (newEntry q gpu now))
          | .accessDenied =>
            find_aux tracked self_pid gpu now rest (dictSet acc q.pid (newEntry q gpu now))
    else find_aux tracked self_pid gpu now rest acc

/-- MLMonitorDaemon.find_python_processes: builds new_processes from the
snapshot, starting from an empty dict. -/
def find_python_processes (tracked : Tracked) (snap : List ProcInfo) (self_pid : Nat)
    (gpu : Nat → GpuOutcome) (now : DateTime) : Tracked :=
  find_aux tracked self_pid gpu now snap []

/-- The payload of the termination notification assembled in
check_process_status: title ML Process Ended - username, message carrying
the command line, the duration (end minus start), and both timestamps.
The f-string rendering is presentation; the payload fields are recorded. -/
structure Notification where
  pid : Nat
  username : Str
  cmdline : Str
  start_time : DateTime
  end_time : DateTime
deriving DecidableEq, Repr

/-- The two in-place updates check_process_status performs on a live
tracked entry: last_checked becomes now, gpu_info becomes the fresh query
result; the other three fields are untouched. -/
def refreshEntry (e : ProcEntry) (g : Option GpuInfo) (now : DateTime) : ProcEntry :=
  { e with last_checked := now, gpu_info := g }

/-- The loop of check_process_status over the tracked pids: a live pid has
last_checked and gpu_info refreshed in place; a vanished pid
(psutil.Process raises NoSuchProcess) triggers one best-effort notification
(the send result is discarded) and is queued for removal. -/
def check_loop (alive : Nat → Bool) (gpu : Nat → GpuOutcome) (http : Nat → HttpOutcome)
    (now : DateTime) :
    List Nat → Tracked → List Nat → List Notification →
      Except PyExc (Tracked × List Nat × List Notification)
  | [], t, dead, ns => .ok (t, dead, ns)
  | pid :: rest, t, dead, ns =>
    match lookupPid t pid with
    | none => check_loop alive gpu http now rest t dead ns
    | some e =>
      if alive pid then
        check_loop alive gpu http now rest
          (dictSet t pid (refreshEntry e (get_gpu_info_for_process (gpu pid) pid) now))
          dead ns
      else
        match send_notification (http pid) with
        | .error ex => .error ex
        | .ok _ =>
          check_loop alive gpu http now rest t (dead ++ [pid])
            (ns ++ [⟨pid, e.username, e.cmdline, e.start_time, now⟩])

/-- MLMonitorDaemon.check_process_status: iterate over the tracked pids,
then delete the pids marked terminated. -/
def check_process_status (t : Tracked) (alive : Nat → Bool) (gpu : Nat → GpuOutcome)
    (http : Nat → HttpOutcome) (now : DateTime) :
    Except PyExc (Tracked × List Notification) :=
  match check_loop alive gpu http now (t.map Prod.fst) t [] [] with
  | .error e => .error e
  | .ok (t', dead, ns) => .ok (removeAll t' dead, ns)

/-- Filesystem operations save_state can perform, as an observable trace. -/
inductive FsOp where
  | makedirs (dir : Str)
  | openTrunc (path : Str)
  | writeData (path : Str) (data : List (Str × SerEntry))
  | rename (src dst : Str)
deriving DecidableEq, Repr

/-- os.path.dirname (posix): everything up to the last slash (47), with
trailing slashes stripped unless the head is all slashes. -/
def dirname (p : Str) : Str :=
  let head := p.take (p.length - (p.reverse.takeWhile (fun c => c != 47)).length)
  if head.all (fun c => c == 47) then head
  else (head.reverse.dropWhile (fun c => c == 47)).reverse

/-- IO outcomes injected into save_state: whether os.makedirs raises and
whether the mode-w open and json.dump write raises. -/
structure SaveEnv where
  makedirsOutcome : Option PyExc
  writeOutcome : Option PyExc

/-- MLMonitorDaemon.save_state.  os.makedirs runs before the try block, so
its failure raises to the caller.  The mode-w open and json.dump write is inside
try/except Exception: on success the trace is a truncating open of the
destination followed by one write of the serialized state; a write failure
is caught and logged (the trace keeps the truncating open that mode w
performs).  Returns the Except result paired with the filesystem trace. -/
def save_state (env : SaveEnv) (state_file : Str) (t : Tracked) :
    Except PyExc Unit × List FsOp :=
  match env.makedirsOutcome with
  | some e => (.error e, [])
  | none =>
    match env.writeOutcome with
    | some _ => (.ok (), [.makedirs (dirname state_file), .openTrunc state_file])
    | none => (.ok (), [.makedirs (dirname state_file), .openTrunc state_file,
        .writeData state_file (serializeState t)])

/-- The external world of one poll cycle: the process_iter snapshot, the liveness
answer psutil.Process gives during check_process_status, the GPU and HTTP
call outcomes keyed by pid, the save outcomes, and datetime.now. -/
structure CycleEnv where
  snapshot : List ProcInfo
  alive : Nat → Bool
  gpu : Nat → GpuOutcome
  http : Nat → HttpOutcome
  saveEnv : SaveEnv
  now : DateTime

/-- One iteration of the while loop in MLMonitorDaemon.run, in source order:
new_processes = find_python_processes(); tracked_processes = new_processes;
check_process_status(); save_state().  An uncaught exception anywhere here
propagates to the outer except of run and ends the polling loop. -/
def run_cycle (self_pid : Nat) (dest : Str) (env : CycleEnv) (t : Tracked) :
    Except PyExc (Tracked × List Notification × List FsOp) :=
  let t1 := find_python_processes t env.snapshot self_pid env.gpu env.now
  match check_process_status t1 env.alive env.gpu env.http env.now with
  | .error e => .error e
  | .ok (t2, ns) =>
    match save_state env.saveEnv dest t2 with
    | (.error e, _) => .error e
    | (.ok _, ops) => .ok (t2, ns, ops)

/-- The polling loop of the daemon, one CycleEnv per tick until the stop flag; an
Except.error is an exception reaching the outer handler of run, which ends the
loop.  Collects the notifications of every cycle in order. -/
def run_loop (self_pid : Nat) (dest : Str) : List CycleEnv → Tracked →
    Except PyExc (Tracked × List Notification)
  | [], t => .ok (t, [])
  | env :: rest, t =>
    match run_cycle self_pid dest env t with
    | .error e => .error e
    | .ok (t', ns, _) =>
      match run_loop self_pid dest rest t' with
      | .error e => .error e
      | .ok (tf, nsf) => .ok (tf, ns ++ nsf)

/-- Live per-pid stats the viewer queries (psutil plus optional nvidia-smi),
reduced to the fields its control flow reads; the numeric percentages are
floating point and stay with the external capability. -/
structure LiveStats where
  running : Bool
  status : Str
deriving DecidableEq, Repr

/-- The conversion loop of the viewer over the parsed state dict; any failure
(bad key, bad timestamp) raises out, caught by load_daemon_state, which
then discards all partial progress. -/
def viewer_parse_entries : List (Str × SerEntry) → Tracked → Option Tracked
  | [], t => some t
  | (k, se) :: rest, t =>
    match pyInt k, deserializeEntry se with
    | some pid, some e => viewer_parse_entries rest (dictSet t pid e)
    | _, _ => none

/-- MLMonitorUI.load_daemon_state: a missing file yields an empty dict; any
exception while reading or converting is caught and yields an empty dict. -/
def load_daemon_state (f : FileRead) : Except PyExc Tracked :=
  match f with
  | .missing => .ok []
  | .malformed _ => .ok []
  | .content es => .ok ((viewer_parse_entries es []).getD [])

/-- The per-entry stats refresh and filtering in update_process_list: each
entry gets the live stats merged in; a non-running entry is dropped unless
show_all is set. -/
def update_loop (stats : Nat → LiveStats) (show_all : Bool) :
    Tracked → List (Nat × (ProcEntry × LiveStats))
  | [] => []
  | (pid, e) :: rest =>
    if (stats pid).running || show_all then
      (pid, (e, stats pid)) :: update_loop stats show_all rest
    else update_loop stats show_all rest

/-- MLMonitorUI.update_process_list: replaces the displayed dict with the
freshly loaded daemon state, then refreshes stats and filters. -/
def update_process_list (f : FileRead) (stats : Nat → LiveStats) (show_all : Bool) :
    Except PyExc (List (Nat × (ProcEntry × LiveStats))) :=
  match load_daemon_state f with
  | .error e => .error e
  | .ok tracked => .ok (update_loop stats show_all tracked)

/-- Observable content of a path while save_state's operations run. -/
inductive FileContent where
  | absent
  | empty
  | data (d : List (Str × SerEntry))
deriving DecidableEq, Repr

/-- Effect of one filesystem operation on the per-path content map: a
truncating open empties the target, a write fills it, a rename moves
content from source to target. -/
def applyOp (fs : Str → FileContent) : FsOp → Str → FileContent
  | .makedirs _ => fs
  | .openTrunc p => fun q => if q = p then .empty else fs q
  | .writeData p d => fun q => if q = p then .data d else fs q
  | .rename src dst => fun q => if q = dst then fs src else if q = src then .absent else fs q

/-- Content map after a list of operations. -/
def runOps (fs : Str → FileContent) : List FsOp → Str → FileContent
  | [] => fs
  | op :: rest => runOps (applyOp fs op) rest

/-- Does a trace contain a rename step? -/
def usesRename (ops : List FsOp) : Bool :=
  ops.any fun op =>
    match op with
    | .rename _ _ => true
    | _ => false

/-- Atomic replace-on-write, as the spec describes it: at every intermediate
point of the trace, a reader of dest sees either the old content or the
final content, never anything else (in particular never a truncated or
partially written file). -/
def atomicReplaceOnWrite (ops : List FsOp) (dest : Str) (fs0 : Str → FileContent) : Prop :=
  ∀ pre suf, pre ++ suf = ops →
    runOps fs0 pre dest = fs0 dest ∨ runOps fs0 pre dest = runOps fs0 ops dest

theorem parseDigitsAux_append (xs ys : Str) (acc : Nat) :
    parseDigitsAux acc (xs ++ ys) = parseDigitsAux (parseDigitsAux acc xs) ys := by
  induction xs generalizing acc with
  | nil => rfl
  | cons x xs ih => exact ih _

theorem pad_length (w n : Nat) : (pad w n).length = w := by
  induction w generalizing n with
  | zero => rfl
  | succ w ih => simp [pad, ih]

theorem pad_all_digits (w n : Nat) : (pad w n).all isDigitCode = true := by
  induction w generalizing n with
  | zero => rfl
  | succ w ih =>
    have h10 : n % 10 < 10 := Nat.mod_lt _ (by omega)
    show ((pad w (n / 10) ++ [48 + n % 10]).all isDigitCode) = true
    rw [List.all_append, ih]
    simp [isDigitCode]
    omega

theorem parseDigitsAux_pad (w : Nat) : ∀ n acc,
    parseDigitsAux acc (pad w n) = acc * 10 ^ w + n % 10 ^ w := by
  induction w with
  | zero =>
    intro n acc
    show acc = acc * 10 ^ 0 + n % 10 ^ 0
    simp [Nat.mod_one]
  | succ w ih =>
    intro n acc
    show parseDigitsAux acc (pad w (n / 10) ++ [48 + n % 10]) = acc * 10 ^ (w + 1) + n % 10 ^ (w + 1)
    rw [parseDigitsAux_append, ih]
    show (acc * 10 ^ w + n / 10 % 10 ^ w) * 10 + (48 + n % 10 - 48) = acc * 10 ^ (w + 1) + n % 10 ^ (w + 1)
    have hsub : 48 + n % 10 - 48 = n % 10 := by omega
    have hmm : n % 10 ^ (w + 1) = n % 10 + 10 * (n / 10 % 10 ^ w) := by
      rw [pow_succ, mul_comm (10 ^ w) 10, Nat.mod_mul]
    rw [hsub, hmm, pow_succ]
    ring

theorem parseDigits_pad (w n : Nat) (h : n < 10 ^ w) : parseDigits (pad w n) = n := by
  rw [parseDigits, parseDigitsAux_pad, Nat.zero_mul, Nat.zero_add, Nat.mod_eq_of_lt h]

theorem take_append_of_length (l r : List Nat) (w : Nat) (h : l.length = w) :
    (l ++ r).take w = l := by
  subst h; simp

theorem drop_append_of_length (l r : List Nat) (w : Nat) (h : l.length = w) :
    (l ++ r).drop w = r := by
  subst h; simp

theorem readFixed_pad (w n : Nat) (h : n < 10 ^ w) (rest : Str) :
    readFixed w (pad w n ++ rest) = some (n, rest) := by
  have ht : ((pad w n ++ rest).take w) = pad w n :=
    take_append_of_length _ _ _ (pad_length w n)
  have hd : ((pad w n ++ rest).drop w) = rest :=
    drop_append_of_length _ _ _ (pad_length w n)
  simp only [readFixed, ht, hd]
  rw [if_pos ⟨pad_length w n, pad_all_digits w n⟩, parseDigits_pad w n h]

theorem readFixed_pad_nil (w n : Nat) (h : n < 10 ^ w) :
    readFixed w (pad w n) = some (n, []) := by
  have := readFixed_pad w n h []
  rwa [List.append_nil] at this

theorem expectCode_cons (c : Nat) (xs : Str) : expectCode c (c :: xs) = some xs := by
  simp [expectCode]

theorem lt_ten_pow_two {n : Nat} (h : n < 100) : n < 10 ^ 2 := by
  norm_num
  omega

theorem lt_ten_pow_four {n : Nat} (h : n < 10000) : n < 10 ^ 4 := by
  norm_num
  omega

theorem lt_ten_pow_six {n : Nat} (h : n < 1000000) : n < 10 ^ 6 := by
  norm_num
  omega

/-- fromisoformat inverts isoformat on every representable datetime. -/
theorem fromisoformat_isoformat (d : DateTime) (h : d.valid) :
    fromisoformat (isoformat d) = some d := by
  obtain ⟨y, mo, da, hh, mi, se, us⟩ := d
  obtain ⟨h1, h2, h3, h4, h5, h6, h7⟩ := h
  by_cases hus : us = 0
  · subst hus
    simp [isoformat, fromisoformat, readMicro,
      readFixed_pad 4 y (lt_ten_pow_four h1),
      readFixed_pad 2 mo (lt_ten_pow_two h2),
      readFixed_pad 2 da (lt_ten_pow_two h3),
      readFixed_pad 2 hh (lt_ten_pow_two h4),
      readFixed_pad 2 mi (lt_ten_pow_two h5),
      readFixed_pad_nil 2 se (lt_ten_pow_two h6),
      expectCode_cons]
  · simp [isoformat, fromisoformat, readMicro, hus,
      readFixed_pad 4 y (lt_ten_pow_four h1),
      readFixed_pad 2 mo (lt_ten_pow_two h2),
      readFixed_pad 2 da (lt_ten_pow_two h3),
      readFixed_pad 2 hh (lt_ten_pow_two h4),
      readFixed_pad 2 mi (lt_ten_pow_two h5),
      readFixed_pad 2 se (lt_ten_pow_two h6),
      readFixed_pad_nil 6 us (lt_ten_pow_six h7),
      expectCode_cons]

theorem natDigitsAux_spec (fuel : Nat) : ∀ n, n < fuel →
    parseDigits (natDigitsAux fuel n) = n ∧ (natDigitsAux fuel n).isEmpty = false ∧
      (natDigitsAux fuel n).all isDigitCode = true := by
  induction fuel with
  | zero => intro n hn; omega
  | succ fuel ih =>
    intro n hn
    by_cases h10 : n < 10
    · refine ⟨?_, ?_, ?_⟩
      · show parseDigitsAux 0 (if n < 10 then [48 + n] else _) = n
        rw [if_pos h10]
        show 0 * 10 + (48 + n - 48) = n
        omega
      · show (if n < 10 then [48 + n] else _).isEmpty = false
        rw [if_pos h10]
        rfl
      · show (if n < 10 then [48 + n] else _).all isDigitCode = true
        rw [if_pos h10]
        simp [isDigitCode]
        omega
    · have hdiv : n / 10 < fuel := by
        have : n / 10 < n := Nat.div_lt_self (by omega) (by omega)
        omega
      obtain ⟨ihp, ihe, iha⟩ := ih (n / 10) hdiv
      have hmod : n % 10 < 10 := Nat.mod_lt _ (by omega)
      refine ⟨?_, ?_, ?_⟩
      · show parseDigitsAux 0 (if n < 10 then _ else natDigitsAux fuel (n / 10) ++ [48 + n % 10]) = n
        rw [if_neg h10]
        rw [show parseDigitsAux 0 (natDigitsAux fuel (n / 10) ++ [48 + n % 10]) =
              parseDigitsAux (parseDigitsAux 0 (natDigitsAux fuel (n / 10))) [48 + n % 10]
            from parseDigitsAux_append _ _ _]
        rw [show parseDigitsAux 0 (natDigitsAux fuel (n / 10)) = n / 10 from ihp]
        show n / 10 * 10 + (48 + n % 10 - 48) = n
        omega
      · show (if n < 10 then _ else natDigitsAux fuel (n / 10) ++ [48 + n % 10]).isEmpty = false
        rw [if_neg h10]
        rcases hne : natDigitsAux fuel (n / 10) with _ | ⟨c, cs⟩
        · rw [hne] at ihe; simp at ihe
        · rfl
      · show (if n < 10 then _ else natDigitsAux fuel (n / 10) ++ [48 + n % 10]).all isDigitCode = true
        rw [if_neg h10, List.all_append, iha]
        simp [isDigitCode]
        omega

theorem parseDigits_natDigits (n : Nat) : parseDigits (natDigits n) = n :=
  (natDigitsAux_spec (n + 1) n (by omega)).1

theorem pyInt_natDigits (n : Nat) : pyInt (natDigits n) = some n := by
  obtain ⟨hp, he, ha⟩ := natDigitsAux_spec (n + 1) n (by omega)
  rw [pyInt, natDigits] at *
  rw [he, ha]
  simp [hp]

theorem lookupPid_dictSet {α : Type} (m : List (Nat × α)) (k q : Nat) (v : α) :
    lookupPid (dictSet m k v) q = if k = q then some v else lookupPid m q := by
  induction m with
  | nil => rfl
  | cons kv rest ih =>
    obtain ⟨k', v'⟩ := kv
    by_cases hk : k' = k
    · subst hk
      show lookupPid (if k' = k' then (k', v) :: rest else _) q = _
      rw [if_pos rfl]
      show (if k' = q then some v else lookupPid rest q) = _
      by_cases hq : k' = q <;> simp [hq, lookupPid]
    · show lookupPid (if k' = k then _ else (k', v') :: dictSet rest k v) q = _
      rw [if_neg hk]
      show (if k' = q then some v' else lookupPid (dictSet rest k v) q) = _
      rw [ih]
      by_cases hq : k' = q
      · subst hq
        rw [if_pos rfl, if_neg (by omega)]
        show some v' = if k' = k' then some v' else lookupPid rest k'
        rw [if_pos rfl]
      · rw [if_neg hq]
        by_cases hkq : k = q
        · rw [if_pos hkq, if_pos hkq]
        · rw [if_neg hkq, if_neg hkq]
          show lookupPid rest q = if k' = q then some v' else lookupPid rest q
          rw [if_neg hq]

theorem dictSet_append_of_not_mem {α : Type} (m : List (Nat × α)) (k : Nat) (v : α)
    (h : lookupPid m k = none) : dictSet m k v = m ++ [(k, v)] := by
  induction m with
  | nil => rfl
  | cons kv rest ih =>
    obtain ⟨k', v'⟩ := kv
    have hne : k' ≠ k := by
      intro he
      rw [show lookupPid ((k', v') :: rest) k = if k' = k then some v' else lookupPid rest k
          from rfl, if_pos he] at h
      exact Option.noConfusion h
    have hrest : lookupPid rest k = none := by
      rw [show lookupPid ((k', v') :: rest) k = if k' = k then some v' else lookupPid rest k
          from rfl, if_neg hne] at h
      exact h
    show (if k' = k then _ else (k', v') :: dictSet rest k v) = _
    rw [if_neg hne, ih hrest]
    rfl

theorem lookupPid_append {α : Type} (l r : List (Nat × α)) (q : Nat) :
    lookupPid (l ++ r) q =
      match lookupPid l q with
      | some v => some v
      | none => lookupPid r q := by
  induction l with
  | nil => rfl
  | cons kv rest ih =>
    obtain ⟨k', v'⟩ := kv
    by_cases hq : k' = q
    · simp [lookupPid, hq]
    · show (if k' = q then some v' else lookupPid (rest ++ r) q) = _
      rw [if_neg hq, ih]
      show _ = (match if k' = q then some v' else lookupPid rest q with
        | some v => some v
        | none => lookupPid r q)
      rw [if_neg hq]

theorem lookupPid_none_of_not_mem {α : Type} (m : List (Nat × α)) (q : Nat)
    (h : q ∉ m.map Prod.fst) : lookupPid m q = none := by
  induction m with
  | nil => rfl
  | cons kv rest ih =>
    obtain ⟨k', v'⟩ := kv
    simp at h
    show (if k' = q then some v' else lookupPid rest q) = none
    rw [if_neg (by omega), ih (by simp [h.2])]

theorem mem_of_lookupPid_some {α : Type} (m : List (Nat × α)) (q : Nat) (v : α)
    (h : lookupPid m q = some v) : q ∈ m.map Prod.fst := by
  induction m with
  | nil => exact Option.noConfusion h
  | cons kv rest ih =>
    obtain ⟨k', v'⟩ := kv
    by_cases hq : k' = q
    · simp [hq]
    · rw [show lookupPid ((k', v') :: rest) q = if k' = q then some v' else lookupPid rest q
          from rfl, if_neg hq] at h
      simp [ih h]

theorem deserializeEntry_serializeEntry (e : ProcEntry) (h : e.valid) :
    deserializeEntry (serializeEntry e) = some e := by
  obtain ⟨h1, h2⟩ := h
  simp [serializeEntry, deserializeEntry,
    fromisoformat_isoformat _ h1, fromisoformat_isoformat _ h2]

theorem load_entries_serializeState (T : Tracked) :
    ∀ acc, (T.map Prod.fst).Nodup → (∀ pe ∈ T, pe.2.valid) →
      (∀ q ∈ T.map Prod.fst, lookupPid acc q = none) →
      load_entries acc (serializeState T) = acc ++ T := by
  induction T with
  | nil =>
    intro acc _ _ _
    simp [serializeState, load_entries]
  | cons pe rest ih =>
    obtain ⟨p, e⟩ := pe
    intro acc hnd hv hdisj
    have hv_head : ProcEntry.valid e := hv (p, e) (by simp)
    have hser : serializeState ((p, e) :: rest) =
        (natDigits p, serializeEntry e) :: serializeState rest := rfl
    rw [hser]
    show (match pyInt (natDigits p), deserializeEntry (serializeEntry e) with
      | some pid, some e' => load_entries (dictSet acc pid e') (serializeState rest)
      | _, _ => acc) = acc ++ (p, e) :: rest
    rw [pyInt_natDigits, deserializeEntry_serializeEntry e hv_head]
    show load_entries (dictSet acc p e) (serializeState rest) = acc ++ (p, e) :: rest
    have hpacc : lookupPid acc p = none := hdisj p (by simp)
    rw [dictSet_append_of_not_mem acc p e hpacc]
    have hnd' : (p :: rest.map Prod.fst).Nodup := hnd
    rw [List.nodup_cons] at hnd'
    have hnd_rest : (rest.map Prod.fst).Nodup := hnd'.2
    have hp_not_rest : p ∉ rest.map Prod.fst := hnd'.1
    have hdisj' : ∀ q ∈ rest.map Prod.fst, lookupPid (acc ++ [(p, e)]) q = none := by
      intro q hq
      rw [lookupPid_append]
      rw [hdisj q (by simp [hq])]
      show lookupPid [(p, e)] q = none
      have hpq : p ≠ q := fun he => hp_not_rest (he ▸ hq)
      show (if p = q then some e else lookupPid [] q) = none
      rw [if_neg hpq]
      rfl
    rw [ih (acc ++ [(p, e)]) hnd_rest (fun pe hpe => hv pe (by simp [hpe])) hdisj']
    simp

/-- C8: on a nonexistent state-file path, the daemon's load_state returns
without error and leaves the tracked set unchanged (so starting from the
empty startup dict it stays empty), and the viewer's load_daemon_state
returns the empty mapping without error. -/
theorem c8_missing_file_empty_mapping :
    (∀ t : Tracked, load_state FileRead.missing t = Except.ok t) ∧
      load_daemon_state FileRead.missing = Except.ok [] :=
  ⟨fun _ => rfl, rfl⟩

/-- C10: send_notification reports success exactly when the HTTP response
status code is 200; any other status and any raised exception yield False,
and no exception propagates to the caller (the result is always ok). -/
theorem c10_send_success_iff_200 (o : HttpOutcome) :
    ∃ b : Bool, send_notification o = Except.ok b ∧
      (b = true ↔ ∃ tx, o = HttpOutcome.response 200 tx) := by
  cases o with
  | response st tx =>
    refine ⟨decide (st = 200), rfl, ?_⟩
    constructor
    · intro hb
      exact ⟨tx, by rw [of_decide_eq_true hb]⟩
    · rintro ⟨tx2, he⟩
      injection he with h1 _
      subst h1
      exact decide_eq_true rfl
  | exc e =>
    refine ⟨false, rfl, ?_⟩
    constructor
    · intro hb
      exact Bool.noConfusion hb
    · rintro ⟨tx2, he⟩
      exact HttpOutcome.noConfusion he

/-- C7 counterexample: with a nonempty previously displayed set, a
deserialization error on refresh yields the empty displayed set, not the
previous one: the claim that the prior entries are retained is false. -/
theorem c7_counterexample :
    update_process_list (FileRead.malformed PyExc.valueError)
        (fun _ => ⟨true, pystr "running"⟩) false = Except.ok [] ∧
      update_process_list (FileRead.malformed PyExc.valueError)
          (fun _ => ⟨true, pystr "running"⟩) false ≠
        Except.ok [(100, (⟨pystr "python train.py", ⟨2026, 1, 2, 3, 4, 5, 0⟩, pystr "alice",
          ⟨2026, 1, 2, 3, 4, 6, 0⟩, none⟩, ⟨true, pystr "running"⟩))] := by
  constructor
  · rfl
  · intro h
    rw [show update_process_list (FileRead.malformed PyExc.valueError)
        (fun _ => ⟨true, pystr "running"⟩) false =
          Except.ok [] from rfl] at h
    injection h with h2
    exact List.noConfusion h2

/-- C7 amended: when the viewer's read of the state file hits a
deserialization error (unparsable json, or a bad key or timestamp in the
conversion loop), the refresh completes without an exception, but the
displayed entry set is reset to empty for that cycle rather than retained. -/
theorem c7_amended_reset_to_empty :
    (∀ (stats : Nat → LiveStats) (show_all : Bool) (e : PyExc),
        update_process_list (FileRead.malformed e) stats show_all = Except.ok []) ∧
      (∀ (es : List (Str × SerEntry)) (stats : Nat → LiveStats) (show_all : Bool),
        viewer_parse_entries es [] = none →
          update_process_list (FileRead.content es) stats show_all = Except.ok []) := by
  constructor
  · intro stats sa e
    rfl
  · intro es stats sa h
    show (match load_daemon_state (FileRead.content es) with
      | .error e => Except.error e
      | .ok tracked => Except.ok (update_loop stats sa tracked)) = Except.ok []
    rw [show load_daemon_state (FileRead.content es) =
        Except.ok ((viewer_parse_entries es []).getD []) from rfl, h]
    rfl

/-- Witness for the amended C7 theorem at a concrete unparsable entry list
(its key is the empty string, which int() rejects). -/
theorem c7_amended_witness :
    update_process_list (FileRead.content [([], ⟨[], [], [], [], none⟩)])
        (fun _ => ⟨true, []⟩) false = Except.ok [] :=
  c7_amended_reset_to_empty.2 [([], ⟨[], [], [], [], none⟩)] (fun _ => ⟨true, []⟩) false rfl

/-- C2 counterexample: a concrete save_state trace is not atomic
replace-on-write: after the truncating open of the destination (a proper
prefix of the trace) a reader sees an empty file, which is neither the old
content nor the final serialized snapshot. -/
theorem c2_counterexample :
    ¬ atomicReplaceOnWrite
        ((save_state ⟨none, none⟩ (pystr "/var/lib/ml-monitor/state.json")
          [(100, ⟨pystr "python train.py", ⟨2026, 1, 2, 3, 4, 5, 0⟩, pystr "alice",
            ⟨2026, 1, 2, 3, 4, 6, 0⟩, none⟩)]).2)
        (pystr "/var/lib/ml-monitor/state.json") (fun _ => FileContent.data []) := by
  intro h
  have hsplit := h
    [FsOp.makedirs (dirname (pystr "/var/lib/ml-monitor/state.json")),
      FsOp.openTrunc (pystr "/var/lib/ml-monitor/state.json")]
    [FsOp.writeData (pystr "/var/lib/ml-monitor/state.json")
      (serializeState [(100, ⟨pystr "python train.py", ⟨2026, 1, 2, 3, 4, 5, 0⟩, pystr "alice",
        ⟨2026, 1, 2, 3, 4, 6, 0⟩, none⟩)])]
    rfl
  rcases hsplit with h1 | h1 <;> exact absurd h1 (by decide)

/-- C2 amended: every successful save writes the serialized snapshot
directly to the destination path with a truncating open followed by a
single write; there is no temporary file and no rename, so a concurrent
reader can observe a truncated file mid-save. -/
theorem c2_amended_direct_write (env : SaveEnv) (dest : Str) (t : Tracked)
    (h1 : env.makedirsOutcome = none) (h2 : env.writeOutcome = none) :
    (save_state env dest t).2 =
        [FsOp.makedirs (dirname dest), FsOp.openTrunc dest,
          FsOp.writeData dest (serializeState t)] ∧
      usesRename (save_state env dest t).2 = false := by
  obtain ⟨mk, wr⟩ := env
  cases h1
  cases h2
  exact ⟨rfl, rfl⟩

/-- Witness for the amended C2 theorem at a concrete path and state. -/
theorem c2_amended_witness :
    (save_state ⟨none, none⟩ (pystr "/var/lib/ml-monitor/state.json") []).2 =
        [FsOp.makedirs (dirname (pystr "/var/lib/ml-monitor/state.json")),
          FsOp.openTrunc (pystr "/var/lib/ml-monitor/state.json"),
          FsOp.writeData (pystr "/var/lib/ml-monitor/state.json") (serializeState [])] ∧
      usesRename (save_state ⟨none, none⟩ (pystr "/var/lib/ml-monitor/state.json") []).2 = false :=
  c2_amended_direct_write ⟨none, none⟩ (pystr "/var/lib/ml-monitor/state.json") [] rfl rfl

/-- C3: save then load is the identity on the tracked set.  save_state
writes exactly the serialized value tree serializeState T, and load_state
applied to that tree (into the empty startup dict) reconstructs T exactly:
every entry keeps cmdline, start_time, username, last_checked and gpu_info.
Hypotheses: dict keys are unique (a Python dict invariant) and the
datetimes are representable Python datetimes. -/
theorem c3_round_trip (T : Tracked) (dest : Str) (env : SaveEnv)
    (hmk : env.makedirsOutcome = none) (hwr : env.writeOutcome = none)
    (hnd : (T.map Prod.fst).Nodup) (hv : ∀ pe ∈ T, pe.2.valid) :
    (save_state env dest T).2 =
        [FsOp.makedirs (dirname dest), FsOp.openTrunc dest,
          FsOp.writeData dest (serializeState T)] ∧
      load_state (FileRead.content (serializeState T)) [] = Except.ok T := by
  constructor
  · obtain ⟨mk, wr⟩ := env
    cases hmk
    cases hwr
    rfl
  · show Except.ok (load_entries [] (serializeState T)) = Except.ok T
    rw [load_entries_serializeState T [] hnd hv (fun _ _ => rfl)]
    rfl

/-- Witness for C3 at a concrete two-entry tracked set (one entry with a
microsecond-bearing timestamp and GPU info, one without). -/
theorem c3_round_trip_witness :
    (save_state ⟨none, none⟩ (pystr "/var/lib/ml-monitor/state.json")
        [(100, ⟨pystr "python train.py", ⟨2026, 1, 2, 3, 4, 5, 123456⟩, pystr "alice",
          ⟨2026, 10, 12, 23, 59, 58, 0⟩, some ⟨pystr "512 MiB"⟩⟩),
         (205, ⟨pystr "Unknown", ⟨1999, 12, 31, 0, 0, 0, 1⟩, pystr "bob",
          ⟨2000, 1, 1, 0, 0, 0, 999999⟩, none⟩)]).2 =
        [FsOp.makedirs (dirname (pystr "/var/lib/ml-monitor/state.json")),
          FsOp.openTrunc (pystr "/var/lib/ml-monitor/state.json"),
          FsOp.writeData (pystr "/var/lib/ml-monitor/state.json")
            (serializeState
              [(100, ⟨pystr "python train.py", ⟨2026, 1, 2, 3, 4, 5, 123456⟩, pystr "alice",
                ⟨2026, 10, 12, 23, 59, 58, 0⟩, some ⟨pystr "512 MiB"⟩⟩),
               (205, ⟨pystr "Unknown", ⟨1999, 12, 31, 0, 0, 0, 1⟩, pystr "bob",
                ⟨2000, 1, 1, 0, 0, 0, 999999⟩, none⟩)])] ∧
      load_state (FileRead.content
          (serializeState
            [(100, ⟨pystr "python train.py", ⟨2026, 1, 2, 3, 4, 5, 123456⟩, pystr "alice",
              ⟨2026, 10, 12, 23, 59, 58, 0⟩, some ⟨pystr "512 MiB"⟩⟩),
             (205, ⟨pystr "Unknown", ⟨1999, 12, 31, 0, 0, 0, 1⟩, pystr "bob",
              ⟨2000, 1, 1, 0, 0, 0, 999999⟩, none⟩)])) [] =
        Except.ok
          [(100, ⟨pystr "python train.py", ⟨2026, 1, 2, 3, 4, 5, 123456⟩, pystr "alice",
            ⟨2026, 10, 12, 23, 59, 58, 0⟩, some ⟨pystr "512 MiB"⟩⟩),
           (205, ⟨pystr "Unknown", ⟨1999, 12, 31, 0, 0, 0, 1⟩, pystr "bob",
            ⟨2000, 1, 1, 0, 0, 0, 999999⟩, none⟩)] :=
  c3_round_trip _ _ _ rfl rfl (by decide) (by decide)

/-- C9 counterexample: a snapshot can report the one-element command-line
list containing the empty string; it is truthy in Python, so the stored
commandLine is the space-join of it, which is the empty string, not
Unknown.  The tracked entry created by find_python_processes for such a
candidate therefore has an empty commandLine. -/
theorem c9_counterexample :
    (lookupPid (find_python_processes []
        [⟨100, pystr "python", pystr "bob", some [[]], ⟨2026, 1, 1, 0, 0, 0, 0⟩,
          ParentLookup.noSuchProcess⟩] 1 (fun _ => GpuOutcome.output 1 [])
        ⟨2026, 1, 1, 0, 0, 1, 0⟩) 100).map ProcEntry.cmdline = some [] := by
  rfl

/-- C9 amended: a None or empty command-line list stores the literal
Unknown; the stored commandLine is the empty string exactly when the
snapshot reports the one-element list containing the empty string (for any
other reported list the join, and hence the stored commandLine, is
nonempty). -/
theorem c9_amended_cmdline (c : Option (List Str)) :
    cmdlineString none = pystr "Unknown" ∧ cmdlineString (some []) = pystr "Unknown" ∧
      (cmdlineString c = [] ↔ c = some [[]]) := by
  refine ⟨rfl, rfl, ?_⟩
  rcases c with _ | l
  · constructor
    · intro h
      exact absurd h (by decide)
    · intro h
      exact Option.noConfusion h
  · rcases l with _ | ⟨x, l2⟩
    · constructor
      · intro h
        exact absurd h (by decide)
      · intro h
        injection h with h2
        exact List.noConfusion h2
    · rcases l2 with _ | ⟨y, r⟩
      · show joinSpace [x] = [] ↔ some [x] = some [[]]
        simp [joinSpace]
      · show joinSpace (x :: y :: r) = [] ↔ some (x :: y :: r) = some [[]]
        constructor
        · intro h
          exact absurd h (by simp [joinSpace])
        · intro h
          injection h with h2
          injection h2 with _ h3
          exact List.noConfusion h3

/-- C1 (evidence for the code bug): run() assigns tracked_processes =
find_python_processes() before check_process_status() runs, so a tracked
pid that is absent from the snapshot (the process exited between polls) is
dropped from the dict before the notification code can see it.  Here pid
100 is tracked, the next cycle's snapshot is empty and the process is gone:
the cycle completes with the entry removed but with ZERO notification
attempts, where the claim requires exactly one. -/
theorem c1_missed_termination_evaluation :
    run_cycle 1 (pystr "/var/lib/ml-monitor/state.json")
      ⟨[], fun _ => false, fun _ => GpuOutcome.output 1 [], fun _ => HttpOutcome.response 200 [],
        ⟨none, none⟩, ⟨2026, 1, 2, 3, 4, 7, 0⟩⟩
      [(100, ⟨pystr "python train.py", ⟨2026, 1, 2, 3, 4, 5, 0⟩, pystr "alice",
        ⟨2026, 1, 2, 3, 4, 6, 0⟩, none⟩)] =
      Except.ok ([], [],
        [FsOp.makedirs (pystr "/var/lib/ml-monitor"),
          FsOp.openTrunc (pystr "/var/lib/ml-monitor/state.json"),
          FsOp.writeData (pystr "/var/lib/ml-monitor/state.json") []]) := by
  rfl

theorem send_notification_isOk (o : HttpOutcome) : ∃ b, send_notification o = Except.ok b := by
  cases o with
  | response st tx => exact ⟨decide (st = 200), rfl⟩
  | exc e => exact ⟨false, rfl⟩

theorem check_loop_ok (alive : Nat → Bool) (gpu : Nat → GpuOutcome) (http : Nat → HttpOutcome)
    (now : DateTime) :
    ∀ (pids : List Nat) (t : Tracked) (dead : List Nat) (ns : List Notification),
      ∃ res, check_loop alive gpu http now pids t dead ns = Except.ok res := by
  intro pids
  induction pids with
  | nil =>
    intro t dead ns
    exact ⟨(t, dead, ns), rfl⟩
  | cons pid rest ih =>
    intro t dead ns
    rcases hl : lookupPid t pid with _ | e
    · obtain ⟨res, hres⟩ := ih t dead ns
      exact ⟨res, by simp only [check_loop, hl]; exact hres⟩
    · by_cases ha : alive pid = true
      · obtain ⟨res, hres⟩ := ih (dictSet t pid
          (refreshEntry e (get_gpu_info_for_process (gpu pid) pid) now)) dead ns
        exact ⟨res, by simp only [check_loop, hl, ha, if_true]; exact hres⟩
      · obtain ⟨b, hb⟩ := send_notification_isOk (http pid)
        obtain ⟨res, hres⟩ := ih t (dead ++ [pid])
          (ns ++ [⟨pid, e.username, e.cmdline, e.start_time, now⟩])
        refine ⟨res, ?_⟩
        simp only [check_loop, hl, ha, if_false, Bool.false_eq_true, hb]
        exact hres

theorem run_cycle_ok (self_pid : Nat) (dest : Str) (env : CycleEnv) (t : Tracked)
    (hmk : env.saveEnv.makedirsOutcome = none) :
    ∃ res, run_cycle self_pid dest env t = Except.ok res := by
  obtain ⟨⟨t2, dead, ns⟩, hcl⟩ := check_loop_ok env.alive env.gpu env.http env.now
    ((find_python_processes t env.snapshot self_pid env.gpu env.now).map Prod.fst)
    (find_python_processes t env.snapshot self_pid env.gpu env.now) [] []
  rcases hw : env.saveEnv.writeOutcome with _ | e
  · exact ⟨(removeAll t2 dead, ns,
      [FsOp.makedirs (dirname dest), FsOp.openTrunc dest,
        FsOp.writeData dest (serializeState (removeAll t2 dead))]),
      by simp only [run_cycle, check_process_status, hcl, save_state, hmk, hw]⟩
  · exact ⟨(removeAll t2 dead, ns, [FsOp.makedirs (dirname dest), FsOp.openTrunc dest]),
      by simp only [run_cycle, check_process_status, hcl, save_state, hmk, hw]⟩

/-- C5: no single failed notification delivery, failed GPU query, or failed
state-file write ever makes the polling loop exit: as long as the directory
creation that save_state performs outside its try block succeeds, every
cycle of the loop completes normally (Except.ok), for arbitrary HTTP
outcomes (including raised exceptions), arbitrary GPU outcomes (including
raised exceptions), and arbitrary write outcomes (including raised
exceptions, which save_state catches; the save is simply attempted again on
the next cycle's save_state call). -/
theorem c5_loop_survives_failures (self_pid : Nat) (dest : Str) (envs : List CycleEnv)
    (t : Tracked) (h : ∀ env ∈ envs, env.saveEnv.makedirsOutcome = none) :
    ∃ res, run_loop self_pid dest envs t = Except.ok res := by
  revert h
  induction envs generalizing t with
  | nil =>
    intro h
    exact ⟨(t, []), rfl⟩
  | cons env rest ih =>
    intro h
    obtain ⟨⟨t1, ns1, ops1⟩, hc⟩ := run_cycle_ok self_pid dest env t (h env (by simp))
    obtain ⟨⟨tf, nsf⟩, hr⟩ := ih t1 (fun e he => h e (by simp [he]))
    exact ⟨(tf, ns1 ++ nsf), by simp only [run_loop, hc, hr]⟩

/-- Witness for C5: one concrete cycle in which the HTTP post raises, the
GPU query raises, and the state-file write raises, and the loop still
completes normally. -/
theorem c5_loop_survives_failures_witness :
    ∃ res, run_loop 1 (pystr "/var/lib/ml-monitor/state.json")
      [⟨[⟨100, pystr "python", pystr "alice", some [pystr "train.py"],
          ⟨2026, 1, 2, 3, 4, 5, 0⟩, ParentLookup.name (pystr "bash")⟩],
        fun _ => false, fun _ => GpuOutcome.exc PyExc.otherError,
        fun _ => HttpOutcome.exc PyExc.osError, ⟨none, some PyExc.osError⟩,
        ⟨2026, 1, 2, 3, 5, 0, 0⟩⟩]
      [(100, ⟨pystr "python train.py", ⟨2026, 1, 2, 3, 4, 5, 0⟩, pystr "alice",
        ⟨2026, 1, 2, 3, 4, 6, 0⟩, none⟩)] = Except.ok res :=
  c5_loop_survives_failures 1 (pystr "/var/lib/ml-monitor/state.json") _ _ (by
    intro env he
    rw [List.eq_of_mem_singleton he])

theorem mem_keys_dictSet {α : Type} (m : List (Nat × α)) (k q : Nat) (v : α)
    (h : q ∈ (dictSet m k v).map Prod.fst) : q = k ∨ q ∈ m.map Prod.fst := by
  induction m with
  | nil => exact Or.inl (List.mem_singleton.mp h)
  | cons kv rest ih =>
    obtain ⟨k', v'⟩ := kv
    by_cases hk : k' = k
    · subst hk
      rw [show dictSet ((k', v') :: rest) k' v = (k', v) :: rest from by
        simp [dictSet]] at h
      exact Or.inr h
    · rw [show dictSet ((k', v') :: rest) k v = (k', v') :: dictSet rest k v from by
        simp [dictSet, hk]] at h
      rcases List.mem_cons.mp h with he | hm
      · exact Or.inr (he ▸ List.mem_cons_self _ _)
      · rcases ih hm with he | hmm
        · exact Or.inl he
        · exact Or.inr (List.mem_cons_of_mem _ hmm)

theorem dictSet_keys_nodup {α : Type} (m : List (Nat × α)) (k : Nat) (v : α)
    (h : (m.map Prod.fst).Nodup) : ((dictSet m k v).map Prod.fst).Nodup := by
  induction m with
  | nil => simp [dictSet]
  | cons kv rest ih =>
    obtain ⟨k', v'⟩ := kv
    have h' : (k' :: rest.map Prod.fst).Nodup := h
    rw [List.nodup_cons] at h'
    by_cases hk : k' = k
    · subst hk
      rw [show dictSet ((k', v') :: rest) k' v = (k', v) :: rest from by simp [dictSet]]
      exact h
    · rw [show dictSet ((k', v') :: rest) k v = (k', v') :: dictSet rest k v from by
        simp [dictSet, hk]]
      show (k' :: (dictSet rest k v).map Prod.fst).Nodup
      rw [List.nodup_cons]
      refine ⟨?_, ih h'.2⟩
      intro hmem
      rcases mem_keys_dictSet rest k k' v hmem with he | hm
      · exact hk he
      · exact h'.1 hm

theorem find_aux_keys_nodup (tracked : Tracked) (self_pid : Nat) (gpu : Nat → GpuOutcome)
    (now : DateTime) :
    ∀ (l : List ProcInfo) (acc : Tracked), (acc.map Prod.fst).Nodup →
      ((find_aux tracked self_pid gpu now l acc).map Prod.fst).Nodup := by
  intro l
  induction l with
  | nil =>
    intro acc h
    exact h
  | cons q rest ih =>
    intro acc h
    simp only [find_aux]
    split
    · split
      · exact ih _ (dictSet_keys_nodup _ _ _ h)
      · split
        · exact ih _ h
        · split
          · exact ih _ h
          · split
            · exact ih _ h
            · exact ih _ (dictSet_keys_nodup _ _ _ h)
          · exact ih _ (dictSet_keys_nodup _ _ _ h)
          · exact ih _ (dictSet_keys_nodup _ _ _ h)
    · exact ih _ h

theorem find_aux_retains (tracked : Tracked) (self_pid : Nat) (gpu : Nat → GpuOutcome)
    (now : DateTime) (p : Nat) (e : ProcEntry) (he : lookupPid tracked p = some e) :
    ∀ (l : List ProcInfo) (acc : Tracked),
      ((∃ q ∈ l, q.pid = p ∧ is_target_name q.name = true) ∨ lookupPid acc p = some e) →
      lookupPid (find_aux tracked self_pid gpu now l acc) p = some e := by
  intro l
  induction l with
  | nil =>
    intro acc h
    rcases h with ⟨q, hq, _⟩ | h
    · exact absurd hq (List.not_mem_nil q)
    · exact h
  | cons q rest ih =>
    intro acc h
    have hshift : ∀ v : ProcEntry, q.pid ≠ p →
        ((∃ q0 ∈ rest, q0.pid = p ∧ is_target_name q0.name = true) ∨
          lookupPid (dictSet acc q.pid v) p = some e) := by
      intro v hqp
      rcases h with ⟨q0, hq0, hq0p, hq0t⟩ | hacc
      · rcases List.mem_cons.mp hq0 with he0 | hq0rest
        · exact absurd (he0 ▸ hq0p) hqp
        · exact Or.inl ⟨q0, hq0rest, hq0p, hq0t⟩
      · refine Or.inr ?_
        rw [lookupPid_dictSet, if_neg hqp]
        exact hacc
    have hkeep : q.pid ≠ p →
        ((∃ q0 ∈ rest, q0.pid = p ∧ is_target_name q0.name = true) ∨
          lookupPid acc p = some e) := by
      intro hqp
      rcases h with ⟨q0, hq0, hq0p, hq0t⟩ | hacc
      · rcases List.mem_cons.mp hq0 with he0 | hq0rest
        · exact absurd (he0 ▸ hq0p) hqp
        · exact Or.inl ⟨q0, hq0rest, hq0p, hq0t⟩
      · exact Or.inr hacc
    simp only [find_aux]
    split
    next htn =>
      split
      next e' hlq =>
        by_cases hqp : q.pid = p
        · rw [hqp, he] at hlq
          injection hlq with he'
          subst he'
          refine ih _ (Or.inr ?_)
          rw [hqp, lookupPid_dictSet, if_pos rfl]
        · exact ih _ (hshift e' hqp)
      next hlq =>
        have hqp : q.pid ≠ p := by
          intro hq
          rw [hq, he] at hlq
          exact Option.noConfusion hlq
        split
        · exact ih _ (hkeep hqp)
        · split
          · exact ih _ (hkeep hqp)
          · split
            · exact ih _ (hkeep hqp)
            · exact ih _ (hshift _ hqp)
          · exact ih _ (hshift _ hqp)
          · exact ih _ (hshift _ hqp)
    next htn =>
      rcases h with ⟨q0, hq0, hq0p, hq0t⟩ | hacc
      · rcases List.mem_cons.mp hq0 with he0 | hq0rest
        · exact absurd (he0 ▸ hq0t) htn
        · exact ih _ (Or.inl ⟨q0, hq0rest, hq0p, hq0t⟩)
      · exact ih _ (Or.inr hacc)

theorem check_loop_untouched (alive : Nat → Bool) (gpu : Nat → GpuOutcome)
    (http : Nat → HttpOutcome) (now : DateTime) (p : Nat) (v : ProcEntry) :
    ∀ (pids : List Nat) (t : Tracked) (dead : List Nat) (ns : List Notification)
      (res : Tracked × List Nat × List Notification), p ∉ pids → lookupPid t p = some v →
      check_loop alive gpu http now pids t dead ns = Except.ok res →
      lookupPid res.1 p = some v := by
  intro pids
  induction pids with
  | nil =>
    intro t dead ns res _ hl hc
    injection hc with hres
    subst hres
    exact hl
  | cons pid rest ih =>
    intro t dead ns res hp hl hc
    have hpid : pid ≠ p := fun he => hp (he ▸ List.mem_cons_self _ _)
    have hprest : p ∉ rest := fun hm => hp (List.mem_cons_of_mem _ hm)
    rcases hlk : lookupPid t pid with _ | e
    · rw [show check_loop alive gpu http now (pid :: rest) t dead ns =
          check_loop alive gpu http now rest t dead ns from by
        simp only [check_loop, hlk]] at hc
      exact ih t dead ns res hprest hl hc
    · by_cases ha : alive pid = true
      · rw [show check_loop alive gpu http now (pid :: rest) t dead ns =
            check_loop alive gpu http now rest
              (dictSet t pid (refreshEntry e (get_gpu_info_for_process (gpu pid) pid) now))
              dead ns from by
          simp only [check_loop, hlk, ha, if_true]] at hc
        refine ih _ dead ns res hprest ?_ hc
        rw [lookupPid_dictSet, if_neg hpid]
        exact hl
      · obtain ⟨b, hb⟩ := send_notification_isOk (http pid)
        rw [show check_loop alive gpu http now (pid :: rest) t dead ns =
            check_loop alive gpu http now rest t (dead ++ [pid])
              (ns ++ [⟨pid, e.username, e.cmdline, e.start_time, now⟩]) from by
          simp only [check_loop, hlk]
          rw [if_neg ha, hb]] at hc
        exact ih t _ _ res hprest hl hc

theorem check_loop_updates (alive : Nat → Bool) (gpu : Nat → GpuOutcome)
    (http : Nat → HttpOutcome) (now : DateTime) (p : Nat) (e : ProcEntry)
    (ha : alive p = true) :
    ∀ (pids : List Nat) (t : Tracked) (dead : List Nat) (ns : List Notification)
      (res : Tracked × List Nat × List Notification), pids.Nodup → p ∈ pids →
      lookupPid t p = some e →
      check_loop alive gpu http now pids t dead ns = Except.ok res →
      lookupPid res.1 p =
        some (refreshEntry e (get_gpu_info_for_process (gpu p) p) now) := by
  intro pids
  induction pids with
  | nil =>
    intro t dead ns res _ hp _ _
    exact absurd hp (List.not_mem_nil p)
  | cons pid rest ih =>
    intro t dead ns res hnd hp hl hc
    have hnd' := List.nodup_cons.mp hnd
    by_cases hpe : pid = p
    · subst hpe
      rw [show check_loop alive gpu http now (pid :: rest) t dead ns =
          check_loop alive gpu http now rest
            (dictSet t pid (refreshEntry e (get_gpu_info_for_process (gpu pid) pid) now))
            dead ns from by
        simp only [check_loop, hl, ha, if_true]] at hc
      refine check_loop_untouched alive gpu http now pid _ rest _ dead ns res hnd'.1 ?_ hc
      rw [lookupPid_dictSet, if_pos rfl]
    · have hprest : p ∈ rest := by
        rcases List.mem_cons.mp hp with he | hm
        · exact absurd he.symm hpe
        · exact hm
      rcases hlk : lookupPid t pid with _ | e2
      · rw [show check_loop alive gpu http now (pid :: rest) t dead ns =
            check_loop alive gpu http now rest t dead ns from by
          simp only [check_loop, hlk]] at hc
        exact ih t dead ns res hnd'.2 hprest hl hc
      · by_cases hal : alive pid = true
        · rw [show check_loop alive gpu http now (pid :: rest) t dead ns =
              check_loop alive gpu http now rest
                (dictSet t pid (refreshEntry e2 (get_gpu_info_for_process (gpu pid) pid) now))
                dead ns from by
            simp only [check_loop, hlk, hal, if_true]] at hc
          refine ih _ dead ns res hnd'.2 hprest ?_ hc
          rw [lookupPid_dictSet, if_neg hpe]
          exact hl
        · obtain ⟨b, hb⟩ := send_notification_isOk (http pid)
          rw [show check_loop alive gpu http now (pid :: rest) t dead ns =
              check_loop alive gpu http now rest t (dead ++ [pid])
                (ns ++ [⟨pid, e2.username, e2.cmdline, e2.start_time, now⟩]) from by
            simp only [check_loop, hlk]
            rw [if_neg hal, hb]] at hc
          exact ih t _ _ res hnd'.2 hprest hl hc

theorem check_loop_dead_not_alive (alive : Nat → Bool) (gpu : Nat → GpuOutcome)
    (http : Nat → HttpOutcome) (now : DateTime) (p : Nat) (ha : alive p = true) :
    ∀ (pids : List Nat) (t : Tracked) (dead : List Nat) (ns : List Notification)
      (res : Tracked × List Nat × List Notification), p ∉ dead →
      check_loop alive gpu http now pids t dead ns = Except.ok res →
      p ∉ res.2.1 := by
  intro pids
  induction pids with
  | nil =>
    intro t dead ns res hp hc
    injection hc with hres
    subst hres
    exact hp
  | cons pid rest ih =>
    intro t dead ns res hp hc
    rcases hlk : lookupPid t pid with _ | e
    · rw [show check_loop alive gpu http now (pid :: rest) t dead ns =
          check_loop alive gpu http now rest t dead ns from by
        simp only [check_loop, hlk]] at hc
      exact ih t dead ns res hp hc
    · by_cases hal : alive pid = true
      · rw [show check_loop alive gpu http now (pid :: rest) t dead ns =
            check_loop alive gpu http now rest
              (dictSet t pid (refreshEntry e (get_gpu_info_for_process (gpu pid) pid) now))
              dead ns from by
          simp only [check_loop, hlk, hal, if_true]] at hc
        exact ih _ dead ns res hp hc
      · obtain ⟨b, hb⟩ := send_notification_isOk (http pid)
        rw [show check_loop alive gpu http now (pid :: rest) t dead ns =
            check_loop alive gpu http now rest t (dead ++ [pid])
              (ns ++ [⟨pid, e.username, e.cmdline, e.start_time, now⟩]) from by
          simp only [check_loop, hlk]
          rw [if_neg hal, hb]] at hc
        refine ih t _ _ res ?_ hc
        intro hmem
        rcases List.mem_append.mp hmem with hm | hm
        · exact hp hm
        · have hppid : p = pid := List.mem_singleton.mp hm
          rw [hppid] at ha
          exact hal ha

theorem lookupPid_removeAll (t : Tracked) (dead : List Nat) (p : Nat) (h : p ∉ dead) :
    lookupPid (removeAll t dead) p = lookupPid t p := by
  induction t with
  | nil => rfl
  | cons kv rest ih =>
    obtain ⟨k, v⟩ := kv
    show lookupPid (((k, v) :: rest).filter fun pe => !(dead.contains pe.1)) p =
      lookupPid ((k, v) :: rest) p
    rw [List.filter_cons]
    by_cases hd : (!(dead.contains (k, v).1)) = true
    · rw [if_pos hd]
      show (if k = p then some v else lookupPid (removeAll rest dead) p) =
        if k = p then some v else lookupPid rest p
      by_cases hk : k = p
      · rw [if_pos hk, if_pos hk]
      · rw [if_neg hk, if_neg hk, ih]
    · rw [if_neg hd]
      have hkd : k ∈ dead := by
        by_contra hnk
        refine hd ?_
        simp [hnk]
      have hk : k ≠ p := fun he => h (he ▸ hkd)
      show lookupPid (removeAll rest dead) p = if k = p then some v else lookupPid rest p
      rw [if_neg hk, ih]

theorem run_cycle_inv (self_pid : Nat) (dest : Str) (env : CycleEnv) (t : Tracked)
    (t' : Tracked) (ns : List Notification) (ops : List FsOp)
    (h : run_cycle self_pid dest env t = Except.ok (t', ns, ops)) :
    ∃ t2 dead,
      check_loop env.alive env.gpu env.http env.now
          ((find_python_processes t env.snapshot self_pid env.gpu env.now).map Prod.fst)
          (find_python_processes t env.snapshot self_pid env.gpu env.now) [] [] =
        Except.ok (t2, dead, ns) ∧ t' = removeAll t2 dead := by
  rcases hcl : check_loop env.alive env.gpu env.http env.now
      ((find_python_processes t env.snapshot self_pid env.gpu env.now).map Prod.fst)
      (find_python_processes t env.snapshot self_pid env.gpu env.now) [] []
    with e | ⟨t2, dead, ns2⟩
  · simp only [run_cycle, check_process_status, hcl] at h
    exact Except.noConfusion h
  · simp only [run_cycle, check_process_status, hcl] at h
    rcases hmk : env.saveEnv.makedirsOutcome with _ | e
    · rcases hwr : env.saveEnv.writeOutcome with _ | e
      · rw [show save_state env.saveEnv dest (removeAll t2 dead) =
            (Except.ok (), [FsOp.makedirs (dirname dest), FsOp.openTrunc dest,
              FsOp.writeData dest (serializeState (removeAll t2 dead))]) from by
          simp only [save_state, hmk, hwr]] at h
        injection h with hv
        injection hv with hv1 hv2
        injection hv2 with hv2 hv3
        refine ⟨t2, dead, ?_, hv1.symm⟩
        rw [hv2]
      · rw [show save_state env.saveEnv dest (removeAll t2 dead) =
            (Except.ok (), [FsOp.makedirs (dirname dest), FsOp.openTrunc dest]) from by
          simp only [save_state, hmk, hwr]] at h
        injection h with hv
        injection hv with hv1 hv2
        injection hv2 with hv2 hv3
        refine ⟨t2, dead, ?_, hv1.symm⟩
        rw [hv2]
    · rw [show save_state env.saveEnv dest (removeAll t2 dead) = (Except.error e, []) from by
        simp only [save_state, hmk]] at h
      exact Except.noConfusion h

/-- C4: a pid tracked with entry e, present in the next cycle's snapshot
under the target name and still alive at check time, is present after the
cycle with exactly refreshEntry e g now: only last_checked (set to the
cycle's now) and gpu_info (set to the fresh GPU query result) change;
cmdline, start_time and username are identical. -/
theorem c4_identity_continuity (env : CycleEnv) (self_pid : Nat) (dest : Str) (t : Tracked)
    (p : Nat) (e : ProcEntry) (t' : Tracked) (ns : List Notification) (ops : List FsOp)
    (h1 : lookupPid t p = some e)
    (h2 : ∃ q ∈ env.snapshot, q.pid = p ∧ is_target_name q.name = true)
    (h3 : env.alive p = true)
    (h4 : run_cycle self_pid dest env t = Except.ok (t', ns, ops)) :
    lookupPid t' p =
      some (refreshEntry e (get_gpu_info_for_process (env.gpu p) p) env.now) := by
  obtain ⟨t2, dead, hcl, ht'⟩ := run_cycle_inv self_pid dest env t t' ns ops h4
  have hf : lookupPid (find_python_processes t env.snapshot self_pid env.gpu env.now) p =
      some e :=
    find_aux_retains t self_pid env.gpu env.now p e h1 env.snapshot [] (Or.inl h2)
  have hnd : ((find_python_processes t env.snapshot self_pid env.gpu env.now).map
      Prod.fst).Nodup :=
    find_aux_keys_nodup t self_pid env.gpu env.now env.snapshot [] (by simp)
  have hmem : p ∈ (find_python_processes t env.snapshot self_pid env.gpu env.now).map
      Prod.fst := mem_of_lookupPid_some _ _ _ hf
  have hup := check_loop_updates env.alive env.gpu env.http env.now p e h3 _ _ [] []
    (t2, dead, ns) hnd hmem hf hcl
  have hdead := check_loop_dead_not_alive env.alive env.gpu env.http env.now p h3 _ _ [] []
    (t2, dead, ns) (List.not_mem_nil p) hcl
  rw [ht', lookupPid_removeAll t2 dead p hdead]
  exact hup

theorem lookupPid_dictSet_isSome {α : Type} (m : List (Nat × α)) (k q : Nat) (v : α)
    (h : (lookupPid m q).isSome = true) : (lookupPid (dictSet m k v) q).isSome = true := by
  rw [lookupPid_dictSet]
  by_cases hk : k = q
  · rw [if_pos hk]
    rfl
  · rw [if_neg hk]
    exact h

theorem find_aux_never_adds (tracked : Tracked) (self_pid : Nat) (gpu : Nat → GpuOutcome)
    (now : DateTime) (p : Nat) (hp : lookupPid tracked p = none) :
    ∀ (l : List ProcInfo) (acc : Tracked),
      (∀ q ∈ l, q.pid = p →
        ∃ n, q.parent = ParentLookup.name n ∧ is_target_name n = true) →
      lookupPid acc p = none →
      lookupPid (find_aux tracked self_pid gpu now l acc) p = none := by
  intro l
  induction l with
  | nil =>
    intro acc _ hacc
    exact hacc
  | cons q rest ih =>
    intro acc hpar hacc
    have hpar' : ∀ q0 ∈ rest, q0.pid = p →
        ∃ n, q0.parent = ParentLookup.name n ∧ is_target_name n = true :=
      fun q0 hq0 => hpar q0 (List.mem_cons_of_mem _ hq0)
    have hdict : ∀ v : ProcEntry, q.pid ≠ p → lookupPid (dictSet acc q.pid v) p = none := by
      intro v hqp
      rw [lookupPid_dictSet, if_neg hqp]
      exact hacc
    simp only [find_aux]
    split
    next htn =>
      split
      next e' hlq =>
        have hqp : q.pid ≠ p := by
          intro hq
          rw [hq, hp] at hlq
          exact Option.noConfusion hlq
        exact ih _ hpar' (hdict e' hqp)
      next hlq =>
        split
        · exact ih _ hpar' hacc
        · split
          · exact ih _ hpar' hacc
          · next n hparent =>
            split
            · exact ih _ hpar' hacc
            · next hnt =>
              by_cases hqp : q.pid = p
              · obtain ⟨n2, hn2, hn2t⟩ := hpar q (List.mem_cons_self _ _) hqp
                rw [hparent] at hn2
                injection hn2 with hnn
                rw [hnn] at hnt
                exact absurd hn2t hnt
              · exact ih _ hpar' (hdict _ hqp)
          · next hparq =>
            by_cases hqp : q.pid = p
            · obtain ⟨n2, hn2, _⟩ := hpar q (List.mem_cons_self _ _) hqp
              rw [hparq] at hn2
              exact ParentLookup.noConfusion hn2
            · exact ih _ hpar' (hdict _ hqp)
          · next hparq =>
            by_cases hqp : q.pid = p
            · obtain ⟨n2, hn2, _⟩ := hpar q (List.mem_cons_self _ _) hqp
              rw [hparq] at hn2
              exact ParentLookup.noConfusion hn2
            · exact ih _ hpar' (hdict _ hqp)
    next htn =>
      exact ih _ hpar' hacc

theorem check_loop_none (alive : Nat → Bool) (gpu : Nat → GpuOutcome)
    (http : Nat → HttpOutcome) (now : DateTime) (p : Nat) :
    ∀ (pids : List Nat) (t : Tracked) (dead : List Nat) (ns : List Notification)
      (res : Tracked × List Nat × List Notification), lookupPid t p = none →
      check_loop alive gpu http now pids t dead ns = Except.ok res →
      lookupPid res.1 p = none := by
  intro pids
  induction pids with
  | nil =>
    intro t dead ns res hl hc
    injection hc with hres
    subst hres
    exact hl
  | cons pid rest ih =>
    intro t dead ns res hl hc
    rcases hlk : lookupPid t pid with _ | e
    · rw [show check_loop alive gpu http now (pid :: rest) t dead ns =
          check_loop alive gpu http now rest t dead ns from by
        simp only [check_loop, hlk]] at hc
      exact ih t dead ns res hl hc
    · have hpid : pid ≠ p := by
        intro he
        rw [he, hl] at hlk
        exact Option.noConfusion hlk
      by_cases hal : alive pid = true
      · rw [show check_loop alive gpu http now (pid :: rest) t dead ns =
            check_loop alive gpu http now rest
              (dictSet t pid (refreshEntry e (get_gpu_info_for_process (gpu pid) pid) now))
              dead ns from by
          simp only [check_loop, hlk, hal, if_true]] at hc
        refine ih _ dead ns res ?_ hc
        rw [lookupPid_dictSet, if_neg hpid]
        exact hl
      · obtain ⟨b, hb⟩ := send_notification_isOk (http pid)
        rw [show check_loop alive gpu http now (pid :: rest) t dead ns =
            check_loop alive gpu http now rest t (dead ++ [pid])
              (ns ++ [⟨pid, e.username, e.cmdline, e.start_time, now⟩]) from by
          simp only [check_loop, hlk]
          rw [if_neg hal, hb]] at hc
        exact ih t _ _ res hl hc

theorem lookupPid_removeAll_none (t : Tracked) (dead : List Nat) (p : Nat)
    (h : lookupPid t p = none) : lookupPid (removeAll t dead) p = none := by
  induction t with
  | nil => rfl
  | cons kv rest ih =>
    obtain ⟨k, v⟩ := kv
    have hk : k ≠ p := by
      intro he
      rw [show lookupPid ((k, v) :: rest) p = if k = p then some v else lookupPid rest p
          from rfl, if_pos he] at h
      exact Option.noConfusion h
    have hrest : lookupPid rest p = none := by
      rw [show lookupPid ((k, v) :: rest) p = if k = p then some v else lookupPid rest p
          from rfl, if_neg hk] at h
      exact h
    show lookupPid (((k, v) :: rest).filter fun pe => !(dead.contains pe.1)) p = none
    rw [List.filter_cons]
    by_cases hd : (!(dead.contains (k, v).1)) = true
    · rw [if_pos hd]
      show (if k = p then some v else lookupPid (removeAll rest dead) p) = none
      rw [if_neg hk]
      exact ih hrest
    · rw [if_neg hd]
      exact ih hrest

theorem run_cycle_preserves_none (self_pid : Nat) (dest : Str) (env : CycleEnv) (t : Tracked)
    (p : Nat) (t' : Tracked) (ns : List Notification) (ops : List FsOp)
    (hpar : ∀ q ∈ env.snapshot, q.pid = p →
      ∃ n, q.parent = ParentLookup.name n ∧ is_target_name n = true)
    (hp : lookupPid t p = none)
    (h : run_cycle self_pid dest env t = Except.ok (t', ns, ops)) :
    lookupPid t' p = none := by
  obtain ⟨t2, dead, hcl, ht'⟩ := run_cycle_inv self_pid dest env t t' ns ops h
  have hf : lookupPid (find_python_processes t env.snapshot self_pid env.gpu env.now) p =
      none :=
    find_aux_never_adds t self_pid env.gpu env.now p hp env.snapshot [] hpar rfl
  have h2 := check_loop_none env.alive env.gpu env.http env.now p _ _ [] [] (t2, dead, ns)
    hf hcl
  rw [ht']
  exact lookupPid_removeAll_none t2 dead p h2

theorem find_aux_accepts (tracked : Tracked) (self_pid : Nat) (gpu : Nat → GpuOutcome)
    (now : DateTime) (p : Nat) (hp : lookupPid tracked p = none) (hps : p ≠ self_pid) :
    ∀ (l : List ProcInfo) (acc : Tracked),
      ((∃ q ∈ l, q.pid = p ∧ is_target_name q.name = true ∧
          (q.parent = ParentLookup.noSuchProcess ∨ q.parent = ParentLookup.accessDenied)) ∨
        (lookupPid acc p).isSome = true) →
      (lookupPid (find_aux tracked self_pid gpu now l acc) p).isSome = true := by
  intro l
  induction l with
  | nil =>
    intro acc h
    rcases h with ⟨q0, hq0, _⟩ | h
    · exact absurd hq0 (List.not_mem_nil q0)
    · exact h
  | cons q rest ih =>
    intro acc h
    rcases h with ⟨q0, hq0, hq0p, hq0t, hq0par⟩ | hacc
    · rcases List.mem_cons.mp hq0 with he0 | hq0rest
      · subst he0
        simp only [find_aux]
        split
        next htn =>
          split
          next e' hlq =>
            rw [hq0p, hp] at hlq
            exact Option.noConfusion hlq
          next hlq =>
            split
            next hself =>
              exact absurd (hq0p ▸ hself) hps
            next hself =>
              split
              next hzom =>
                rcases hq0par with hpar1 | hpar1 <;>
                  (rw [hzom] at hpar1; exact ParentLookup.noConfusion hpar1)
              next n hname =>
                rcases hq0par with hpar1 | hpar1 <;>
                  (rw [hname] at hpar1; exact ParentLookup.noConfusion hpar1)
              next hnsp =>
                refine ih _ (Or.inr ?_)
                rw [lookupPid_dictSet, if_pos hq0p]
                rfl
              next hacd =>
                refine ih _ (Or.inr ?_)
                rw [lookupPid_dictSet, if_pos hq0p]
                rfl
        next htn =>
          exact absurd hq0t htn
      · have hw : ∃ q1 ∈ rest, q1.pid = p ∧ is_target_name q1.name = true ∧
            (q1.parent = ParentLookup.noSuchProcess ∨ q1.parent = ParentLookup.accessDenied) :=
          ⟨q0, hq0rest, hq0p, hq0t, hq0par⟩
        simp only [find_aux]
        split
        · split
          · exact ih _ (Or.inl hw)
          · split
            · exact ih _ (Or.inl hw)
            · split
              · exact ih _ (Or.inl hw)
              · split
                · exact ih _ (Or.inl hw)
                · exact ih _ (Or.inl hw)
              · exact ih _ (Or.inl hw)
              · exact ih _ (Or.inl hw)
        · exact ih _ (Or.inl hw)
    · simp only [find_aux]
      split
      · split
        · exact ih _ (Or.inr (lookupPid_dictSet_isSome _ _ _ _ hacc))
        · split
          · exact ih _ (Or.inr hacc)
          · split
            · exact ih _ (Or.inr hacc)
            · split
              · exact ih _ (Or.inr hacc)
              · exact ih _ (Or.inr (lookupPid_dictSet_isSome _ _ _ _ hacc))
            · exact ih _ (Or.inr (lookupPid_dictSet_isSome _ _ _ _ hacc))
            · exact ih _ (Or.inr (lookupPid_dictSet_isSome _ _ _ _ hacc))
      · exact ih _ (Or.inr hacc)

/-- C6, both halves.  First: a pid whose every snapshot occurrence has a
parent matching the target-name predicate is never added to the tracked set,
over any run of poll cycles starting without it (quantifying over all
environment lists covers every cycle of a longer run).  Second: a candidate
whose parent lookup raises NoSuchProcess or AccessDenied (parent exited,
permission denied) is treated as having no target parent and is accepted on
first sight. -/
theorem c6_child_exclusion :
    (∀ (envs : List CycleEnv) (self_pid : Nat) (dest : Str) (t : Tracked) (p : Nat)
        (res : Tracked × List Notification),
        (∀ env ∈ envs, ∀ q ∈ env.snapshot, q.pid = p →
          ∃ n, q.parent = ParentLookup.name n ∧ is_target_name n = true) →
        lookupPid t p = none →
        run_loop self_pid dest envs t = Except.ok res →
        lookupPid res.1 p = none) ∧
      (∀ (tracked : Tracked) (snap : List ProcInfo) (self_pid : Nat) (gpu : Nat → GpuOutcome)
        (now : DateTime) (p : Nat) (q : ProcInfo),
        q ∈ snap → q.pid = p → is_target_name q.name = true → p ≠ self_pid →
        lookupPid tracked p = none →
        (q.parent = ParentLookup.noSuchProcess ∨ q.parent = ParentLookup.accessDenied) →
        (lookupPid (find_python_processes tracked snap self_pid gpu now) p).isSome = true) := by
  constructor
  · intro envs
    induction envs with
    | nil =>
      intro self_pid dest t p res _ hp hrun
      injection hrun with hres
      subst hres
      exact hp
    | cons env rest ih =>
      intro self_pid dest t p res hpar hp hrun
      rcases hc : run_cycle self_pid dest env t with e | ⟨t1, ns1, ops1⟩
      · rw [show run_loop self_pid dest (env :: rest) t = Except.error e from by
          simp only [run_loop, hc]] at hrun
        exact Except.noConfusion hrun
      · have hp1 : lookupPid t1 p = none :=
          run_cycle_preserves_none self_pid dest env t p t1 ns1 ops1
            (hpar env (List.mem_cons_self _ _)) hp hc
        rcases hr : run_loop self_pid dest rest t1 with e2 | ⟨tf, nsf⟩
        · rw [show run_loop self_pid dest (env :: rest) t = Except.error e2 from by
            simp only [run_loop, hc, hr]] at hrun
          exact Except.noConfusion hrun
        · rw [show run_loop self_pid dest (env :: rest) t = Except.ok (tf, ns1 ++ nsf) from by
            simp only [run_loop, hc, hr]] at hrun
          have hfin := ih self_pid dest t1 p (tf, nsf)
            (fun e2 he2 => hpar e2 (List.mem_cons_of_mem _ he2)) hp1 hr
          injection hrun with hres
          subst hres
          exact hfin
  · intro tracked snap self_pid gpu now p q hq hqp hqt hps hptr hpar
    exact find_aux_accepts tracked self_pid gpu now p hptr hps snap []
      (Or.inl ⟨q, hq, hqp, hqt, hpar⟩)

/-- Witness for C6: pid 200 (python child of a python parent) is absent
after a one-cycle run that starts without it, and pid 300 (python whose
parent lookup raised NoSuchProcess) is accepted by find_python_processes on
first sight. -/
theorem c6_child_exclusion_witness :
    lookupPid
        (([], []) : Tracked × List Notification).1 200 = none ∧
      (lookupPid (find_python_processes []
        [⟨300, pystr "python3", pystr "carol", none, ⟨2026, 1, 1, 0, 0, 0, 0⟩,
          ParentLookup.noSuchProcess⟩] 1 (fun _ => GpuOutcome.exc PyExc.otherError)
        ⟨2026, 1, 1, 0, 0, 1, 0⟩) 300).isSome = true := by
  constructor
  · exact c6_child_exclusion.1
      [⟨[⟨200, pystr "python", pystr "carol", some [pystr "worker.py"],
          ⟨2026, 1, 1, 0, 0, 0, 0⟩, ParentLookup.name (pystr "python")⟩],
        fun _ => true, fun _ => GpuOutcome.exc PyExc.otherError,
        fun _ => HttpOutcome.response 200 [], ⟨none, none⟩, ⟨2026, 1, 1, 0, 0, 1, 0⟩⟩]
      1 (pystr "/var/lib/ml-monitor/state.json") [] 200 ([], [])
      (by
        intro env he q hqmem hqp
        rw [List.eq_of_mem_singleton he] at hqmem
        rw [List.eq_of_mem_singleton hqmem]
        exact ⟨pystr "python", rfl, rfl⟩)
      rfl
      rfl
  · exact c6_child_exclusion.2 []
      [⟨300, pystr "python3", pystr "carol", none, ⟨2026, 1, 1, 0, 0, 0, 0⟩,
        ParentLookup.noSuchProcess⟩]
      1 (fun _ => GpuOutcome.exc PyExc.otherError) ⟨2026, 1, 1, 0, 0, 1, 0⟩ 300 _
      (List.mem_singleton.mpr rfl) rfl rfl (by omega) rfl (Or.inl rfl)

/-- Witness for C4: pid 100, tracked and still present under the target
name with a live process, keeps cmdline, start_time and username through
the cycle while last_checked and gpu_info are refreshed. -/
theorem c4_identity_continuity_witness :
    lookupPid
        [(100, ⟨pystr "python train.py", ⟨2026, 1, 2, 3, 4, 5, 0⟩, pystr "alice",
          ⟨2026, 1, 2, 3, 5, 0, 0⟩, some ⟨pystr "512 MiB"⟩⟩)] 100 =
      some (refreshEntry
        ⟨pystr "python train.py", ⟨2026, 1, 2, 3, 4, 5, 0⟩, pystr "alice",
          ⟨2026, 1, 2, 3, 4, 5, 0⟩, none⟩
        (get_gpu_info_for_process
          (GpuOutcome.output 0 [[natDigits 100, pystr "512 MiB"]]) 100)
        ⟨2026, 1, 2, 3, 5, 0, 0⟩) := by
  refine c4_identity_continuity
    ⟨[⟨100, pystr "python", pystr "alice", some [pystr "python", pystr "train.py"],
        ⟨2026, 1, 2, 3, 4, 5, 0⟩, ParentLookup.name (pystr "bash")⟩],
      fun _ => true, fun _ => GpuOutcome.output 0 [[natDigits 100, pystr "512 MiB"]],
      fun _ => HttpOutcome.response 200 [], ⟨none, none⟩, ⟨2026, 1, 2, 3, 5, 0, 0⟩⟩
    1 (pystr "/var/lib/ml-monitor/state.json")
    [(100, ⟨pystr "python train.py", ⟨2026, 1, 2, 3, 4, 5, 0⟩, pystr "alice",
      ⟨2026, 1, 2, 3, 4, 5, 0⟩, none⟩)]
    100
    ⟨pystr "python train.py", ⟨2026, 1, 2, 3, 4, 5, 0⟩, pystr "alice",
      ⟨2026, 1, 2, 3, 4, 5, 0⟩, none⟩
    [(100, ⟨pystr "python train.py", ⟨2026, 1, 2, 3, 4, 5, 0⟩, pystr "alice",
      ⟨2026, 1, 2, 3, 5, 0, 0⟩, some ⟨pystr "512 MiB"⟩⟩)]
    []
    [FsOp.makedirs (dirname (pystr "/var/lib/ml-monitor/state.json")),
      FsOp.openTrunc (pystr "/var/lib/ml-monitor/state.json"),
      FsOp.writeData (pystr "/var/lib/ml-monitor/state.json")
        (serializeState
          [(100, ⟨pystr "python train.py", ⟨2026, 1, 2, 3, 4, 5, 0⟩, pystr "alice",
            ⟨2026, 1, 2, 3, 5, 0, 0⟩, some ⟨pystr "512 MiB"⟩⟩)])]
    rfl ?_ rfl ?_
  · exact ⟨⟨100, pystr "python", pystr "alice", some [pystr "python", pystr "train.py"],
      ⟨2026, 1, 2, 3, 4, 5, 0⟩, ParentLookup.name (pystr "bash")⟩,
      List.mem_singleton.mpr rfl, rfl, rfl⟩
  · rfl
